import Mathlib

/-!
Verification of the BHExpress Python API client (`bhexpress/api_client/__init__.py`)
against its natural-language specification.

The development shallowly embeds the client: Python values that can appear as
request payloads or parsed JSON bodies become the inductive `PyVal`; Python
dicts become association lists; the external HTTP transport (the `requests`
library) becomes an oracle producing one `TransportOutcome` per call; Python
exceptions other than the client's own `ApiException` that can escape the
client are captured by `PyError`.  String manipulation is modelled over
`List Char` so that every definition reduces by kernel computation.
-/

/-- Python values relevant to the client: JSON-serializable objects passed as
`data`, and values produced by parsing a JSON response body. -/
inductive PyVal where
  | pynone : PyVal
  | str : String → PyVal
  | int : Int → PyVal
  | bool : Bool → PyVal
  | list : List PyVal → PyVal
  | dict : List (String × PyVal) → PyVal

/-- Python truthiness (`if data`, `x or y`) for the modelled values. -/
def truthy : PyVal → Bool
  | .pynone => false
  | .str s => s ≠ ""
  | .int n => n ≠ 0
  | .bool b => b
  | .list l => ¬ l.isEmpty
  | .dict d => ¬ d.isEmpty

/-- `isinstance(v, str)` for the modelled values. -/
def isStr : PyVal → Bool
  | .str _ => true
  | _ => false

/-- Python type name of a value, as used in `AttributeError` messages. -/
def pyTypeName : PyVal → String
  | .pynone => "NoneType"
  | .str _ => "str"
  | .int _ => "int"
  | .bool _ => "bool"
  | .list _ => "list"
  | .dict _ => "dict"

/-- JSON string quoting, modelling `json.dumps` on a `str` (common escapes;
non-ASCII escaping is outside the modelled input domain). -/
def jstr (s : String) : String :=
  "\"" ++ String.join (s.toList.map (fun c =>
    if c = '"' then "\\\""
    else if c = '\\' then "\\\\"
    else if c = '\n' then "\\n"
    else if c = '\t' then "\\t"
    else if c = '\r' then "\\r"
    else String.mk [c])) ++ "\""

/-- Modelled from `json.dumps` with its default separators, as called by
`ApiClient.__request` on non-string payloads. -/
def jsonDumps : PyVal → String
  | .pynone => "null"
  | .bool b => if b then "true" else "false"
  | .int n => toString n
  | .str s => jstr s
  | .list l => "[" ++ String.intercalate ", "
      (l.attach.map (fun x => jsonDumps x.1)) ++ "]"
  | .dict d => "\x7b" ++ String.intercalate ", "
      (d.attach.map (fun kv => jstr kv.1.1 ++ ": " ++ jsonDumps kv.1.2)) ++ "\x7d"
decreasing_by
  · have := List.sizeOf_lt_of_mem x.2
    simp only [PyVal.list.sizeOf_spec]
    omega
  · have h := List.sizeOf_lt_of_mem kv.2
    obtain ⟨a, b⟩ := kv
    obtain ⟨k, v⟩ := a
    simp only [PyVal.dict.sizeOf_spec, Prod.mk.sizeOf_spec] at *
    omega

/-- Python `repr` of a value, as used when a non-string value is interpolated
inside a container's `str()` rendering (minimal model: common cases). -/
def pyRepr : PyVal → String
  | .pynone => "None"
  | .bool b => if b then "True" else "False"
  | .int n => toString n
  | .str s => "'" ++ s ++ "'"
  | .list l => "[" ++ String.intercalate ", "
      (l.attach.map (fun x => pyRepr x.1)) ++ "]"
  | .dict d => "\x7b" ++ String.intercalate ", "
      (d.attach.map (fun kv => "'" ++ kv.1.1 ++ "': " ++ pyRepr kv.1.2)) ++ "\x7d"
decreasing_by
  · have := List.sizeOf_lt_of_mem x.2
    simp only [PyVal.list.sizeOf_spec]
    omega
  · have h := List.sizeOf_lt_of_mem kv.2
    obtain ⟨a, b⟩ := kv
    obtain ⟨k, v⟩ := a
    simp only [PyVal.dict.sizeOf_spec, Prod.mk.sizeOf_spec] at *
    omega

/-- Python `str()` of a value, as used by f-string interpolation. -/
def pyStr : PyVal → String
  | .str s => s
  | v => pyRepr v

/-- First value bound to a key in a Python dict modelled as an association
list (keys of an actual Python dict are unique). -/
def dlookup (k : String) : List (String × String) → Option String
  | [] => Option.none
  | (k', v) :: t => if k' = k then some v else dlookup k t

/-- Same lookup for dicts with `PyVal` values. -/
def dlookupP (k : String) : List (String × PyVal) → Option PyVal
  | [] => Option.none
  | (k', v) :: t => if k' = k then some v else dlookupP k t

/-- Python `d.get(k, default)`. -/
def pyGet (d : List (String × PyVal)) (k : String) (default : PyVal) : PyVal :=
  (dlookupP k d).getD default

/-- Python `x or y` on values. -/
def pyOr (a b : PyVal) : PyVal := if truthy a then a else b

/-- Python `x or y` where `x` is an optional string (`None` or `str`) and the
result of the fallback is an optional string. -/
def pyOrStr (a : Option String) (b : Option String) : Option String :=
  match a with
  | some s => if s = "" then b else some s
  | Option.none => b

/-- Characters stripped by Python `str.strip()` with no arguments (ASCII
whitespace; the client's inputs are ASCII). -/
def isPySpace (c : Char) : Bool :=
  c = ' ' || c = '\t' || c = '\n' || c = '\r' || c = '\x0b' || c = '\x0c'

/-- Python `str.strip()`. -/
def pyStrip (s : String) : String :=
  String.mk (((s.toList.dropWhile isPySpace).reverse.dropWhile isPySpace).reverse)

/-- Python dict merge `{**a, **b}`: keys of `a` in order with values
overridden by `b` on exact (case-sensitive) key equality, then the keys of
`b` not present in `a`, in order. -/
def mergeDicts (a b : List (String × String)) : List (String × String) :=
  a.map (fun kv => (kv.1, (dlookup kv.1 b).getD kv.2))
    ++ b.filter (fun kv => dlookup kv.1 a = Option.none)

/-- The client's custom exception type (`ApiException`). -/
structure ApiException where
  message : String
  code : Option Int
  params : Option PyVal

/-- `ApiException(message)`: the one-argument construction used everywhere in
`ApiClient`, leaving `code` and `params` at their `None` defaults. -/
def simpleExc (msg : String) : ApiException :=
  { message := msg, code := Option.none, params := Option.none }

/-- `ApiException.__str__`. -/
def ApiException.render (e : ApiException) : String :=
  match e.code with
  | some c => "[BHExpress] Error " ++ toString c ++ ": " ++ e.message
  | Option.none => "[BHExpress] " ++ e.message

/-- A Python exception escaping a client call: either the client's own
`ApiException`, or an `AttributeError` (raised by `error.get(...)` when a
parsed JSON error body is not an object). -/
inductive PyError where
  | apiExc : ApiException → PyError
  | attributeError : String → PyError

/-- The client's configuration state after `ApiClient.__init__`. -/
structure ApiClient where
  token : String
  url : String
  headers : List (String × String)
  version : String
  raise_for_status : Bool

/-- `ApiClient.__validate_token`: `token or getenv('BHEXPRESS_API_TOKEN')`,
failure when the result is falsy, else `str(token).strip()`.  The process
environment is passed in as `envToken`. -/
def validate_token (envToken : Option String) (token : Option String) :
    Except ApiException String :=
  match pyOrStr token envToken with
  | Option.none =>
      .error (simpleExc "Se debe configurar la variable de entorno: BHEXPRESS_API_TOKEN.")
  | some s =>
      if s = "" then
        .error (simpleExc "Se debe configurar la variable de entorno: BHEXPRESS_API_TOKEN.")
      else .ok (pyStrip s)

/-- `ApiClient.__validate_url`: `str(url).strip() if url else
getenv('BHEXPRESS_API_URL', DEFAULT_URL).strip()`. -/
def validate_url (envUrl : Option String) (url : Option String) : String :=
  match url with
  | some s => if s ≠ "" then pyStrip s else pyStrip (envUrl.getD "https://bhexpress.cl")
  | Option.none => pyStrip (envUrl.getD "https://bhexpress.cl")

/-- `ApiClient.__generate_headers`. -/
def generate_headers (token : String) : List (String × String) :=
  [("User-Agent", "BHExpress: Cliente de API en Python."),
   ("Accept", "application/json"),
   ("Content-Type", "application/json"),
   ("Authorization", "Token " ++ token)]

/-- `version or DEFAULT_VERSION` from `ApiClient.__init__`. -/
def resolveVersion (version : Option String) : String :=
  match version with
  | some v => if v = "" then "v1" else v
  | Option.none => "v1"

/-- `ApiClient.__init__`: token validation (which may raise), URL resolution,
default header generation, version defaulting.  The two environment variables
read by the constructor are passed in explicitly. -/
def ApiClient.make (envToken envUrl : Option String)
    (token url version : Option String) (rfs : Bool) :
    Except ApiException ApiClient :=
  match validate_token envToken token with
  | .error e => .error e
  | .ok t =>
      .ok { token := t
            url := validate_url envUrl url
            headers := generate_headers t
            version := resolveVersion version
            raise_for_status := rfs }

/-! ### Model of `urllib.parse.urljoin`

`ApiClient.__request` computes
`urllib.parse.urljoin(self.url + '/', api_path.lstrip('/'))` where
`api_path = f'/api/{version}{resource}'`.  The join is modelled from the
CPython 3.11 implementation, restricted to the shapes this call produces:
the second argument is a nonempty relative path reference (it always starts
with `api`, so it carries no scheme and no authority), and neither argument
carries a query or fragment. -/

/-- Split a character list at every `'/'` (Python `s.split('/')`). -/
def splitSlash : List Char → List (List Char)
  | [] => [[]]
  | c :: cs =>
    if c = '/' then [] :: splitSlash cs
    else
      match splitSlash cs with
      | [] => [[c]]
      | s :: ss => (c :: s) :: ss

/-- Inverse of `splitSlash` (Python `'/'.join(segs)`). -/
def joinSlash : List (List Char) → List Char
  | [] => []
  | [s] => s
  | s :: ss => s ++ '/' :: joinSlash ss

/-- Characters allowed in a URL scheme (`urllib.parse.scheme_chars`). -/
def isSchemeChar (c : Char) : Bool :=
  c.isAlpha || c.isDigit || c = '+' || c = '-' || c = '.'

/-- Scheme detection of `urllib.parse.urlsplit`: an initial run of scheme
characters starting with a letter, terminated by `':'`. -/
def schemeSplit (s : List Char) : Option (List Char × List Char) :=
  match s.takeWhile isSchemeChar, s.dropWhile isSchemeChar with
  | c :: cs, ':' :: r => if c.isAlpha then some (c :: cs, r) else Option.none
  | _, _ => Option.none

/-- Decompose a URL into the `scheme://netloc` part to copy into the result
(`urlsplit` lowercases the scheme), whether a netloc is present, and the
path (no query/fragment in the modelled domain). -/
def urlHead (s : List Char) : List Char × Bool × List Char :=
  match schemeSplit s with
  | some (sch, r) =>
    match r with
    | '/' :: '/' :: nr =>
        (sch.map Char.toLower ++ [':', '/', '/'] ++ nr.takeWhile (· ≠ '/'),
          true, nr.dropWhile (· ≠ '/'))
    | _ => (sch.map Char.toLower ++ [':'], false, r)
  | Option.none =>
    match s with
    | '/' :: '/' :: nr =>
        ([':'].tail ++ ['/', '/'] ++ nr.takeWhile (· ≠ '/'), true,
          nr.dropWhile (· ≠ '/'))
    | _ => ([], false, s)

/-- The base URL's scheme, lowercased as `urlsplit` does; `[]` when the base
has no scheme. -/
def baseScheme (s : List Char) : List Char :=
  match schemeSplit s with
  | some (sch, _) => sch.map Char.toLower
  | Option.none => []

/-- Schemes for which CPython `urljoin` performs relative resolution
(`urllib.parse.uses_relative`, CPython 3.11); for any other scheme the
relative URL is returned unchanged.  Every scheme listed here is also in
`uses_netloc`, so after this guard the base's authority is always
inherited. -/
def uses_relative : List (List Char) :=
  ["", "ftp", "http", "gopher", "nntp", "imap", "wais", "file", "https",
   "shttp", "mms", "prospero", "rtsp", "rtsps", "rtspu", "sftp", "svn",
   "svn+ssh", "ws", "wss"].map String.toList

/-- Schemes whose paths carry `';'`-delimited params
(`urllib.parse.uses_params`, CPython 3.11): for these, `urlparse` splits the
params off the last path segment before the join and `urlunparse` reattaches
them after it. -/
def uses_params : List (List Char) :=
  ["", "ftp", "hdl", "prospero", "http", "imap", "https", "shttp", "rtsp",
   "rtsps", "rtspu", "sip", "sips", "mms", "sftp", "tel"].map String.toList

/-- CPython `_splitparams` as invoked on the relative URL of this client
(which always contains `'/'`): split at the first `';'` of the last
`'/'`-segment; an empty params part counts as absent, since `urlunparse`
reattaches params only when non-empty. -/
def splitParams (u : List Char) : List Char × List Char :=
  let segs := splitSlash u
  let last := segs.getLastD []
  match last.dropWhile (· ≠ ';') with
  | [] => (u, [])
  | _ :: bs => (joinSlash (segs.dropLast ++ [last.takeWhile (· ≠ ';')]), bs)

/-- CPython's `segments[1:-1] = filter(None, segments[1:-1])`: drop empty
interior segments, keeping the first and last elements. -/
def dropEmptyButLast : List (List Char) → List (List Char)
  | [] => []
  | [z] => [z]
  | s :: rest =>
      if s = [] then dropEmptyButLast rest else s :: dropEmptyButLast rest

/-- `filterMiddle` applies `dropEmptyButLast` after the first element,
mirroring the slice assignment `segments[1:-1] = ...`. -/
def filterMiddle : List (List Char) → List (List Char)
  | [] => []
  | [a] => [a]
  | a :: rest => a :: dropEmptyButLast rest

/-- CPython's resolution loop over segments: `'..'` pops the accumulator
(ignoring underflow), `'.'` is skipped, anything else is appended. -/
def resolveSegs (acc : List (List Char)) : List (List Char) → List (List Char)
  | [] => acc
  | s :: rest =>
    if s = ['.', '.'] then resolveSegs acc.dropLast rest
    else if s = ['.'] then resolveSegs acc rest
    else resolveSegs (acc ++ [s]) rest

/-- CPython's merge of base path segments with the relative segments,
including the `segments[1:-1] = filter(None, segments[1:-1])` step. -/
def mergeSegments (baseParts relSegs : List (List Char)) : List (List Char) :=
  filterMiddle (baseParts ++ relSegs)

/-- CPython's resolution of the merged segments into the final path text:
dot-segment resolution, the trailing-dot fixup, the join, and the
`or '/'` fallback. -/
def resolvePath (segments : List (List Char)) : List Char :=
  let resolved := resolveSegs [] segments
  let resolved :=
    if segments.getLast? = some ['.'] ∨ segments.getLast? = some ['.', '.']
    then resolved ++ [[]] else resolved
  let path := joinSlash resolved
  if path = [] then ['/'] else path

/-- Modelled from CPython 3.11 `urllib.parse.urljoin`, restricted as
described above: `rel` is a nonempty scheme-less, authority-less relative
path not starting with `'/'`, neither input has a query or fragment, no
tab/CR/LF characters (which `urlsplit` would remove), and the base has no
bracketed host (which `urlsplit` would validate as an IP literal).  The
model covers the `uses_relative` scheme guard, the lowercasing of the
scheme, the `uses_params`-conditional split of `';'`-params off the relative
URL's last segment and their reattachment, the segment merge with its
`filter(None, segments[1:-1])` step, and dot-segment resolution. -/
def urljoinChars (base rel : List Char) : List Char :=
  if baseScheme base ∈ uses_relative then
    let hd := urlHead base
    let pr := if baseScheme base ∈ uses_params then splitParams rel else (rel, [])
    let baseParts := splitSlash hd.2.2
    let baseParts :=
      if baseParts.getLast? = some [] then baseParts else baseParts.dropLast
    let path := resolvePath (mergeSegments baseParts (splitSlash pr.1))
    let path := if pr.2 = [] then path else path ++ ';' :: pr.2
    let path := if hd.2.1 ∧ path.head? ≠ some '/' then '/' :: path else path
    hd.1 ++ path
  else rel

/-- String-level wrapper for the join. -/
def urljoin (base rel : String) : String :=
  String.mk (urljoinChars base.toList rel.toList)

/-- Python `s.lstrip('/')`. -/
def lstripSlash (s : String) : String :=
  String.mk (s.toList.dropWhile (· = '/'))

/-! ### Request assembly, dispatch and response validation -/

/-- The transport's view of a response (`requests.Response` as consumed by
the client): status code, raw text, and the outcome of `response.json()` —
either the parsed value or a `json.decoder.JSONDecodeError`. -/
structure Response where
  status_code : Nat
  text : String
  jsonBody : Except String PyVal

/-- Modelled from `requests.models.Response.raise_for_status`: it raises
`HTTPError` exactly for client-error (4xx) and server-error (5xx) status
codes. -/
def raisesHTTPError (status : Nat) : Bool :=
  (400 ≤ status && status < 500) || (500 ≤ status && status < 600)

/-- The error message extraction of `ApiClient.__check_and_return_response`:
`error.get('message', '') or error.get('exception', '') or
'Error desconocido.'`. -/
def extractMessage (d : List (String × PyVal)) : PyVal :=
  pyOr (pyGet d "message" (.str ""))
    (pyOr (pyGet d "exception" (.str "")) (.str "Error desconocido."))

/-- `ApiClient.__check_and_return_response`.  On a non-200 status with
`raise_for_status` enabled, `response.raise_for_status()` is attempted; only
when it raises (4xx/5xx) is the error body inspected: a JSON object yields
the extracted message, a JSON decode failure yields the decode-error
message, and a JSON value that is not an object makes `error.get` raise an
uncaught `AttributeError`.  Otherwise the response is returned unchanged. -/
def check_and_return_response (c : ApiClient) (r : Response) :
    Except PyError Response :=
  if r.status_code ≠ 200 ∧ c.raise_for_status = true then
    if raisesHTTPError r.status_code then
      match r.jsonBody with
      | .error _ =>
          .error (.apiExc (simpleExc ("Error HTTP: " ++
            ("Error al decodificar los datos en JSON: " ++ r.text))))
      | .ok (.dict d) =>
          .error (.apiExc (simpleExc ("Error HTTP: " ++ pyStr (extractMessage d))))
      | .ok v =>
          .error (.attributeError
            ("'" ++ pyTypeName v ++ "' object has no attribute 'get'"))
    else .ok r
  else .ok r

/-- One outcome of invoking the transport (`requests.request`): a response,
or one of the three exception categories the client catches, in the order of
its `except` clauses. -/
inductive TransportOutcome where
  | success : Response → TransportOutcome
  | connectionError : String → TransportOutcome
  | timeout : String → TransportOutcome
  | requestError : String → TransportOutcome

/-- What `ApiClient.__request` hands to `requests.request`: method, assembled
URL, encoded body (`Option.none` when `data=None`), merged headers. -/
structure RequestCall where
  method : String
  url : String
  data : Option PyVal
  headers : List (String × String)

/-- The body encoding of `ApiClient.__request`:
`if data and not isinstance(data, str): data = json.dumps(data)`. -/
def encodeBody (data : Option PyVal) : Option PyVal :=
  match data with
  | Option.none => Option.none
  | some v => if truthy v ∧ isStr v = false then some (.str (jsonDumps v)) else some v

/-- The request-assembly half of `ApiClient.__request`: URL construction,
header merge, body encoding. -/
def buildRequest (c : ApiClient) (method resource : String)
    (data : Option PyVal) (hdrs : Option (List (String × String))) :
    RequestCall :=
  { method := method
    url := urljoin (c.url ++ "/") (lstripSlash ("/api/" ++ c.version ++ resource))
    data := encodeBody data
    headers := mergeDicts c.headers (hdrs.getD []) }

/-- `ApiClient.__request`: assemble the request, invoke the transport once
(`transport n` is the outcome the transport would produce on its `n`-th
invocation; the code performs exactly one, so only `transport 0` is
consulted), validate a received response, and map the three caught transport
exception categories to `ApiException`s. -/
def request (c : ApiClient) (method resource : String) (data : Option PyVal)
    (hdrs : Option (List (String × String)))
    (transport : Nat → TransportOutcome) :
    RequestCall × Except PyError Response :=
  let call := buildRequest c method resource data hdrs
  match transport 0 with
  | .success r => (call, check_and_return_response c r)
  | .connectionError e => (call, .error (.apiExc (simpleExc ("Error de conexión: " ++ e))))
  | .timeout e => (call, .error (.apiExc (simpleExc ("Error de timeout: " ++ e))))
  | .requestError e => (call, .error (.apiExc (simpleExc ("Error en la solicitud: " ++ e))))

/-- `ApiClient.get`.  The first component of the result is the client state
after the call: the method body contains no assignment to `self`, so the
translation returns the client unchanged. -/
def ApiClient.get (c : ApiClient) (resource : String)
    (hdrs : Option (List (String × String)))
    (transport : Nat → TransportOutcome) :
    ApiClient × RequestCall × Except PyError Response :=
  (c, request c "GET" resource Option.none hdrs transport)

/-- `ApiClient.delete`. -/
def ApiClient.delete (c : ApiClient) (resource : String)
    (hdrs : Option (List (String × String)))
    (transport : Nat → TransportOutcome) :
    ApiClient × RequestCall × Except PyError Response :=
  (c, request c "DELETE" resource Option.none hdrs transport)

/-- `ApiClient.post`. -/
def ApiClient.post (c : ApiClient) (resource : String) (data : Option PyVal)
    (hdrs : Option (List (String × String)))
    (transport : Nat → TransportOutcome) :
    ApiClient × RequestCall × Except PyError Response :=
  (c, request c "POST" resource data hdrs transport)

/-- `ApiClient.put`. -/
def ApiClient.put (c : ApiClient) (resource : String) (data : Option PyVal)
    (hdrs : Option (List (String × String)))
    (transport : Nat → TransportOutcome) :
    ApiClient × RequestCall × Except PyError Response :=
  (c, request c "PUT" resource data hdrs transport)

/-! ### Lemmas about the join model -/

theorem splitSlash_ne_nil (l : List Char) : splitSlash l ≠ [] := by
  cases l with
  | nil => simp [splitSlash]
  | cons c cs =>
    simp only [splitSlash]
    split
    · simp
    · split <;> simp

theorem splitSlash_eq_cons (l : List Char) :
    ∃ s ss, splitSlash l = s :: ss := by
  cases h : splitSlash l with
  | nil => exact absurd h (splitSlash_ne_nil l)
  | cons s ss => exact ⟨s, ss, rfl⟩

theorem joinSlash_cons_of_ne (s : List Char) (t : List (List Char)) (ht : t ≠ []) :
    joinSlash (s :: t) = s ++ '/' :: joinSlash t := by
  cases t with
  | nil => exact absurd rfl ht
  | cons a b => rfl

theorem joinSlash_splitSlash (l : List Char) : joinSlash (splitSlash l) = l := by
  induction l with
  | nil => rfl
  | cons c cs ih =>
    by_cases h : c = '/'
    · subst h
      have h1 : splitSlash ('/' :: cs) = [] :: splitSlash cs := by
        simp [splitSlash]
      rw [h1, joinSlash_cons_of_ne _ _ (splitSlash_ne_nil cs), ih]
      rfl
    · obtain ⟨s, ss, hs⟩ := splitSlash_eq_cons cs
      have h1 : splitSlash (c :: cs) = (c :: s) :: ss := by
        simp only [splitSlash, if_neg h, hs]
      rw [h1]
      rw [hs] at ih
      cases ss with
      | nil => simpa [joinSlash] using ih
      | cons a b =>
        rw [joinSlash_cons_of_ne _ _ (by simp)] at ih
        rw [joinSlash_cons_of_ne _ _ (by simp), List.cons_append, ih]

theorem takeWhile_all_append (p : Char → Bool) (a : List Char) (b : Char)
    (r : List Char) (ha : ∀ c ∈ a, p c = true) (hb : p b = false) :
    (a ++ b :: r).takeWhile p = a := by
  induction a with
  | nil => simp [List.takeWhile, hb]
  | cons x xs ih =>
    have hx : p x = true := ha x (by simp)
    simp only [List.cons_append, List.takeWhile_cons, hx, if_true]
    rw [ih (fun c hc => ha c (by simp [hc]))]

theorem dropWhile_all_append (p : Char → Bool) (a : List Char) (b : Char)
    (r : List Char) (ha : ∀ c ∈ a, p c = true) (hb : p b = false) :
    (a ++ b :: r).dropWhile p = b :: r := by
  induction a with
  | nil => simp [List.dropWhile, hb]
  | cons x xs ih =>
    have hx : p x = true := ha x (by simp)
    simp only [List.cons_append, List.dropWhile_cons, hx, if_true]
    exact ih (fun c hc => ha c (by simp [hc]))

theorem splitSlash_append_of_no_slash (a b : List Char) (s : List Char)
    (ss : List (List Char)) (ha : ∀ c ∈ a, c ≠ '/') (hb : splitSlash b = s :: ss) :
    splitSlash (a ++ b) = (a ++ s) :: ss := by
  induction a with
  | nil => simpa using hb
  | cons x xs ih =>
    have hx : x ≠ '/' := ha x (by simp)
    have ih' := ih (fun c hc => ha c (by simp [hc]))
    simp only [List.cons_append, splitSlash, if_neg hx, List.append_eq, ih']

theorem splitSlash_append_slash (l : List Char) :
    splitSlash (l ++ ['/']) = splitSlash l ++ [[]] := by
  induction l with
  | nil => rfl
  | cons c cs ih =>
    by_cases h : c = '/'
    · subst h
      have h1 : splitSlash ('/' :: (cs ++ ['/'])) = [] :: splitSlash (cs ++ ['/']) := by
        simp [splitSlash]
      have h2 : splitSlash ('/' :: cs) = [] :: splitSlash cs := by
        simp [splitSlash]
      rw [List.cons_append, h1, ih, h2]
      rfl
    · obtain ⟨s, ss, hs⟩ := splitSlash_eq_cons cs
      have hs' : splitSlash (cs ++ ['/']) = s :: (ss ++ [[]]) := by
        rw [ih, hs]; rfl
      have h1 : splitSlash (c :: cs) = (c :: s) :: ss := by
        simp only [splitSlash, if_neg h, hs]
      have h2 : splitSlash (c :: (cs ++ ['/'])) = (c :: s) :: (ss ++ [[]]) := by
        simp only [splitSlash, if_neg h, hs']
      rw [List.cons_append, h2, h1]
      rfl

/-- The path part `'/p1/p2/.../pk'` assembled from path segments. -/
def pathChars (ps : List (List Char)) : List Char :=
  (ps.map (fun p => '/' :: p)).join

theorem splitSlash_pathChars (ps : List (List Char))
    (h : ∀ p ∈ ps, ∀ c ∈ p, c ≠ '/') :
    splitSlash (pathChars ps ++ ['/']) = [] :: (ps ++ [[]]) := by
  induction ps with
  | nil => rfl
  | cons p ps' ih =>
    have hp : ∀ c ∈ p, c ≠ '/' := h p (by simp)
    have ih' := ih (fun q hq => h q (by simp [hq]))
    have hsplit : splitSlash (p ++ (pathChars ps' ++ ['/'])) = (p ++ []) :: (ps' ++ [[]]) :=
      splitSlash_append_of_no_slash p _ [] (ps' ++ [[]]) hp ih'
    have hshape : pathChars (p :: ps') ++ ['/'] = '/' :: (p ++ (pathChars ps' ++ ['/'])) := by
      simp [pathChars]
    rw [hshape]
    have h1 : splitSlash ('/' :: (p ++ (pathChars ps' ++ ['/']))) =
        [] :: splitSlash (p ++ (pathChars ps' ++ ['/'])) := by
      simp [splitSlash]
    rw [h1, hsplit]
    simp

theorem deb_cons_nil (rest : List (List Char)) (h : rest ≠ []) :
    dropEmptyButLast ([] :: rest) = dropEmptyButLast rest := by
  cases rest with
  | nil => exact absurd rfl h
  | cons a b => simp [dropEmptyButLast]

theorem deb_cons_ne (s : List Char) (rest : List (List Char)) (hs : s ≠ []) :
    dropEmptyButLast (s :: rest) = s :: dropEmptyButLast rest := by
  cases rest with
  | nil => simp [dropEmptyButLast]
  | cons a b => simp [dropEmptyButLast, hs]

theorem dropEmptyButLast_append (mid : List (List Char)) (z : List Char) :
    dropEmptyButLast (mid ++ [z]) = mid.filter (fun s => s ≠ []) ++ [z] := by
  induction mid with
  | nil => rfl
  | cons s rest ih =>
    by_cases h : s = []
    · subst h
      rw [List.cons_append, deb_cons_nil _ (by simp), ih]
      simp [List.filter]
    · rw [List.cons_append, deb_cons_ne _ _ h, ih,
        List.filter_cons_of_pos (by simpa using h)]
      rfl

theorem filterMiddle_cons (a : List Char) (rest : List (List Char))
    (h : rest ≠ []) : filterMiddle (a :: rest) = a :: dropEmptyButLast rest := by
  cases rest with
  | nil => exact absurd rfl h
  | cons b t => rfl

theorem resolveSegs_no_dots (l : List (List Char)) (acc : List (List Char))
    (h : ∀ s ∈ l, s ≠ ['.'] ∧ s ≠ ['.', '.']) : resolveSegs acc l = acc ++ l := by
  induction l generalizing acc with
  | nil => simp [resolveSegs]
  | cons s rest ih =>
    have hs := h s (by simp)
    simp only [resolveSegs, if_neg hs.2, if_neg hs.1]
    rw [ih (acc ++ [s]) (fun x hx => h x (by simp [hx]))]
    simp

theorem joinSlash_append (a b : List (List Char)) (ha : a ≠ []) (hb : b ≠ []) :
    joinSlash (a ++ b) = joinSlash a ++ '/' :: joinSlash b := by
  induction a with
  | nil => exact absurd rfl ha
  | cons s t ih =>
    cases t with
    | nil =>
      cases b with
      | nil => exact absurd rfl hb
      | cons x y => simp [joinSlash, joinSlash_cons_of_ne]
    | cons u v =>
      have h1 : joinSlash ((s :: u :: v) ++ b) =
          s ++ '/' :: joinSlash ((u :: v) ++ b) := by
        apply joinSlash_cons_of_ne
        simp
      rw [h1, ih (by simp), joinSlash_cons_of_ne s (u :: v) (by simp)]
      simp

theorem pathChars_of_ne_nil (ps : List (List Char)) (h : ps ≠ []) :
    pathChars ps = '/' :: joinSlash ps := by
  induction ps with
  | nil => exact absurd rfl h
  | cons p t ih =>
    cases t with
    | nil => simp [pathChars, joinSlash]
    | cons u v =>
      have : pathChars (p :: u :: v) = '/' :: p ++ pathChars (u :: v) := by
        simp [pathChars]
      rw [this, ih (by simp), joinSlash_cons_of_ne p (u :: v) (by simp)]
      simp

theorem string_toList_append (a b : String) :
    (a ++ b).toList = a.toList ++ b.toList := by
  cases a
  cases b
  simp [String.toList]

theorem string_eq_of_toList_eq (a b : String) (h : a.toList = b.toList) :
    a = b := by
  cases a
  cases b
  exact congrArg String.mk h

theorem mk_toList (l : List Char) : (String.mk l).toList = l := rfl

/-- A well-formed absolute base URL `scheme://host/p1/.../pk` with an
optional trailing slash. -/
def mkBaseChars (sch host : List Char) (ps : List (List Char)) (trail : Bool) :
    List Char :=
  sch ++ ':' :: '/' :: '/' :: (host ++ pathChars ps ++ (if trail then ['/'] else []))

theorem schemeSplit_wf (c0 : Char) (sch' : List Char) (rest : List Char)
    (hc0 : c0.isAlpha = true)
    (hsch : ∀ ch ∈ (c0 :: sch'), isSchemeChar ch = true) :
    schemeSplit ((c0 :: sch') ++ ':' :: rest) = some (c0 :: sch', rest) := by
  have ht := takeWhile_all_append isSchemeChar (c0 :: sch') ':' rest hsch (by decide)
  have hd := dropWhile_all_append isSchemeChar (c0 :: sch') ':' rest hsch (by decide)
  simp only [schemeSplit, ht, hd, hc0, if_pos]

theorem netlocSplit (host pp : List Char) (hhost : ∀ ch ∈ host, ch ≠ '/')
    (hpp : ∃ t, pp = '/' :: t) :
    (host ++ pp).takeWhile (· ≠ '/') = host ∧
      (host ++ pp).dropWhile (· ≠ '/') = pp := by
  obtain ⟨t, rfl⟩ := hpp
  constructor
  · exact takeWhile_all_append _ host '/' t
      (fun c hc => by simpa using hhost c hc) (by decide)
  · exact dropWhile_all_append _ host '/' t
      (fun c hc => by simpa using hhost c hc) (by decide)

theorem pp_starts (ps : List (List Char)) (tp : List Char)
    (htp : tp = [] ∨ tp = ['/']) :
    ∃ t, pathChars ps ++ (tp ++ ['/']) = '/' :: t := by
  cases ps with
  | nil =>
    rcases htp with h | h <;> subst h
    · exact ⟨[], rfl⟩
    · exact ⟨['/'], rfl⟩
  | cons p v => exact ⟨p ++ (pathChars v ++ (tp ++ ['/'])), by simp [pathChars]⟩

theorem urlHead_wf (c0 : Char) (sch' host pp : List Char)
    (hc0 : c0.isAlpha = true)
    (hsch : ∀ ch ∈ (c0 :: sch'), isSchemeChar ch = true)
    (hhost : ∀ ch ∈ host, ch ≠ '/')
    (hpp : ∃ t, pp = '/' :: t) :
    urlHead ((c0 :: sch') ++ ':' :: '/' :: '/' :: (host ++ pp)) =
      ((c0 :: sch').map Char.toLower ++ [':', '/', '/'] ++ host, true, pp) := by
  have hs := schemeSplit_wf c0 sch' ('/' :: '/' :: (host ++ pp)) hc0 hsch
  have hn := netlocSplit host pp hhost hpp
  simp only [urlHead, hs, hn.1, hn.2]

theorem map_toLower_self (l : List Char) (h : ∀ c ∈ l, c.toLower = c) :
    l.map Char.toLower = l := by
  induction l with
  | nil => rfl
  | cons c cs ih =>
    rw [List.map_cons, h c (by simp), ih (fun x hx => h x (by simp [hx]))]

theorem baseScheme_wf (c0 : Char) (sch' : List Char) (rest : List Char)
    (hc0 : c0.isAlpha = true)
    (hsch : ∀ ch ∈ (c0 :: sch'), isSchemeChar ch = true) :
    baseScheme ((c0 :: sch') ++ ':' :: rest) = (c0 :: sch').map Char.toLower := by
  rw [baseScheme, schemeSplit_wf c0 sch' rest hc0 hsch]

theorem mem_of_mem_splitSlash (l : List Char) (c : Char) :
    ∀ s, s ∈ splitSlash l → c ∈ s → c ∈ l := by
  induction l with
  | nil =>
    intro s hs hc
    simp [splitSlash] at hs
    subst hs
    simp at hc
  | cons a t ih =>
    intro s hs hc
    by_cases ha : a = '/'
    · subst ha
      have hsp : splitSlash ('/' :: t) = [] :: splitSlash t := by
        simp [splitSlash]
      rw [hsp] at hs
      rcases List.mem_cons.mp hs with h | h
      · subst h
        simp at hc
      · exact List.mem_cons_of_mem _ (ih s h hc)
    · obtain ⟨s0, ss0, h0⟩ := splitSlash_eq_cons t
      have hsp : splitSlash (a :: t) = (a :: s0) :: ss0 := by
        simp only [splitSlash, if_neg ha, h0]
      rw [hsp] at hs
      rcases List.mem_cons.mp hs with h | h
      · subst h
        rcases List.mem_cons.mp hc with h2 | h2
        · subst h2
          simp
        · exact List.mem_cons_of_mem _ (ih s0 (by rw [h0]; simp) h2)
      · exact List.mem_cons_of_mem _
          (ih s (by rw [h0]; exact List.mem_cons_of_mem _ h) hc)

theorem splitParams_no_semi (u : List Char) (h : ∀ c ∈ u, c ≠ ';') :
    splitParams u = (u, []) := by
  have hne : splitSlash u ≠ [] := splitSlash_ne_nil u
  have hlastmem : (splitSlash u).getLastD [] ∈ splitSlash u := by
    rw [List.getLastD_eq_getLast?, List.getLast?_eq_getLast_of_ne_nil hne]
    exact List.getLast_mem hne
  have hdrop : ((splitSlash u).getLastD []).dropWhile (· ≠ ';') = [] := by
    rw [List.dropWhile_eq_nil_iff]
    intro x hx
    simpa using h x (mem_of_mem_splitSlash u x _ hlastmem hx)
  rw [splitParams]
  simp only [hdrop]

theorem splitSlash_pp_false (ps : List (List Char))
    (hps : ∀ p ∈ ps, ∀ ch ∈ p, ch ≠ '/') :
    splitSlash (pathChars ps ++ (([] : List Char) ++ ['/'])) =
      [] :: (ps ++ [[]]) := by
  simpa using splitSlash_pathChars ps hps

theorem splitSlash_pp_true (ps : List (List Char))
    (hps : ∀ p ∈ ps, ∀ ch ∈ p, ch ≠ '/') :
    splitSlash (pathChars ps ++ ((['/'] : List Char) ++ ['/'])) =
      [] :: (ps ++ [[], []]) := by
  have h1 : pathChars ps ++ ((['/'] : List Char) ++ ['/']) =
      (pathChars ps ++ ['/']) ++ ['/'] := by simp
  rw [h1, splitSlash_append_slash, splitSlash_pathChars ps hps]
  simp

theorem filter_mid (ps emp ds : List (List Char))
    (hps : ∀ p ∈ ps, p ≠ []) (hemp : ∀ e ∈ emp, e = [])
    (hds : ∀ x ∈ ds, x ≠ []) :
    (ps ++ emp ++ ds).filter (fun s => s ≠ []) = ps ++ ds := by
  have hp : ps.filter (fun s => s ≠ []) = ps :=
    List.filter_eq_self.mpr (fun a ha => by simpa using hps a ha)
  have hd : ds.filter (fun s => s ≠ []) = ds :=
    List.filter_eq_self.mpr (fun a ha => by simpa using hds a ha)
  have he : emp.filter (fun s => s ≠ []) = [] := by
    simp only [List.filter_eq_nil_iff]
    intro a ha
    simpa using hemp a ha
  rw [List.filter_append, List.filter_append, hp, hd, he]
  simp

theorem mergeSegments_wf (ps emp R : List (List Char))
    (hps : ∀ p ∈ ps, p ≠ []) (hemp : ∀ e ∈ emp, e = [])
    (hR : R ≠ []) (hRd : ∀ x ∈ R.dropLast, x ≠ []) :
    mergeSegments ([] :: (ps ++ emp)) R = [] :: (ps ++ R) := by
  have hRsplit : R.dropLast ++ [R.getLast hR] = R := List.dropLast_append_getLast hR
  have hshape : ((ps ++ emp) ++ R.dropLast) ++ [R.getLast hR] = (ps ++ emp) ++ R := by
    rw [List.append_assoc, hRsplit]
  have hcons : ([] :: (ps ++ emp)) ++ R = [] :: ((ps ++ emp) ++ R) := by simp
  rw [mergeSegments, hcons, filterMiddle_cons _ _ (by
    intro h
    exact hR (List.append_eq_nil.mp h).2)]
  rw [← hshape, dropEmptyButLast_append, filter_mid ps emp R.dropLast hps hemp hRd]
  rw [List.append_assoc, hRsplit]

theorem resolvePath_wf (rest : List (List Char)) (hrest : rest ≠ [])
    (hdots : ∀ s ∈ ([] :: rest : List (List Char)), s ≠ ['.'] ∧ s ≠ ['.', '.']) :
    resolvePath ([] :: rest) = '/' :: joinSlash rest := by
  have hres := resolveSegs_no_dots ([] :: rest) [] hdots
  have hlast : ([] :: rest : List (List Char)).getLast? = rest.getLast? := by
    rw [show ([] :: rest : List (List Char)) = [([] : List Char)] ++ rest by rfl]
    exact List.getLast?_append_of_ne_nil _ hrest
  have hglm : rest.getLast hrest ∈ ([] :: rest : List (List Char)) := by
    exact List.mem_cons_of_mem _ (List.getLast_mem hrest)
  have hcond : ¬ (([] :: rest : List (List Char)).getLast? = some ['.'] ∨
      ([] :: rest : List (List Char)).getLast? = some ['.', '.']) := by
    rw [hlast, List.getLast?_eq_getLast_of_ne_nil hrest]
    rintro (h | h) <;>
      exact absurd (Option.some_injective _ h) (by
        first
        | exact (hdots _ hglm).1
        | exact (hdots _ hglm).2)
  rw [resolvePath, hres]
  rw [if_neg hcond]
  rw [List.nil_append, joinSlash_cons_of_ne _ _ hrest]
  rw [if_neg (by simp)]
  rfl

theorem urljoinChars_wf (c0 : Char) (sch' host : List Char)
    (ps : List (List Char)) (trail : Bool) (rel : List Char)
    (hc0 : c0.isAlpha = true)
    (hsch : ∀ ch ∈ (c0 :: sch'), isSchemeChar ch = true)
    (hlow : ∀ ch ∈ (c0 :: sch'), ch.toLower = ch)
    (hrelsch : (c0 :: sch') ∈ uses_relative)
    (hhost : ∀ ch ∈ host, ch ≠ '/')
    (hps : ∀ p ∈ ps, p ≠ [] ∧ (∀ ch ∈ p, ch ≠ '/') ∧ p ≠ ['.'] ∧ p ≠ ['.', '.'])
    (hsemi : ∀ ch ∈ rel, ch ≠ ';')
    (hrel1 : ∀ x ∈ (splitSlash rel).dropLast, x ≠ [])
    (hrel2 : ∀ x ∈ splitSlash rel, x ≠ ['.'] ∧ x ≠ ['.', '.']) :
    urljoinChars (mkBaseChars (c0 :: sch') host ps trail ++ ['/']) rel =
      mkBaseChars (c0 :: sch') host ps false ++ '/' :: rel := by
  have hlowmap := map_toLower_self (c0 :: sch') hlow
  have hprel : splitParams rel = (rel, []) := splitParams_no_semi rel hsemi
  have hbase : mkBaseChars (c0 :: sch') host ps trail ++ ['/'] =
      (c0 :: sch') ++ ':' :: '/' :: '/' ::
        (host ++ (pathChars ps ++ ((if trail then ['/'] else []) ++ ['/']))) := by
    simp [mkBaseChars]
  have hpp := pp_starts ps (if trail then ['/'] else [])
    (by cases trail <;> simp)
  have hhead := urlHead_wf c0 sch' host
    (pathChars ps ++ ((if trail then ['/'] else []) ++ ['/'])) hc0 hsch hhost hpp
  have hbp : splitSlash (pathChars ps ++ ((if trail then ['/'] else []) ++ ['/'])) =
      [] :: (ps ++ (if trail then [[], []] else [[]])) := by
    cases trail
    · exact splitSlash_pp_false ps (fun p hp => (hps p hp).2.1)
    · exact splitSlash_pp_true ps (fun p hp => (hps p hp).2.1)
  have hemp_all : ∀ e ∈ (if trail then [[], []] else [[]] : List (List Char)),
      e = [] := by
    cases trail <;> intro e he <;> simpa using he
  have hemp_last : (if trail then [[], []] else [[]] : List (List Char)).getLast?
      = some [] := by cases trail <;> rfl
  have hemp_ne : (if trail then [[], []] else [[]] : List (List Char)) ≠ [] := by
    cases trail <;> simp
  have hR := splitSlash_ne_nil rel
  have hgl : (([] : List Char) :: (ps ++ (if trail then [[], []] else [[]]))).getLast?
      = some [] := by
    rw [show (([] : List Char) :: (ps ++ (if trail then [[], []] else [[]]))) =
        (([] : List Char) :: ps) ++ (if trail then [[], []] else [[]]) by simp]
    rw [List.getLast?_append_of_ne_nil _ hemp_ne]
    exact hemp_last
  have hmerge := mergeSegments_wf ps (if trail then [[], []] else [[]])
    (splitSlash rel) (fun p hp => (hps p hp).1) hemp_all hR hrel1
  have hdots : ∀ s ∈ (([] : List Char) :: (ps ++ splitSlash rel)), s ≠ ['.'] ∧ s ≠ ['.', '.'] := by
    intro s hs
    rcases List.mem_cons.mp hs with h | h
    · subst h
      constructor <;> simp
    · rcases List.mem_append.mp h with h | h
      · exact ⟨(hps s h).2.2.1, (hps s h).2.2.2⟩
      · exact hrel2 s h
  have hresolve := resolvePath_wf (ps ++ splitSlash rel)
    (by
      intro h
      exact hR (List.append_eq_nil.mp h).2)
    hdots
  have hbs : baseScheme ((c0 :: sch') ++ ':' :: '/' :: '/' ::
      (host ++ (pathChars ps ++ ((if trail then ['/'] else []) ++ ['/'])))) =
      c0 :: sch' := by
    rw [baseScheme_wf c0 sch' _ hc0 hsch, hlowmap]
  have hpr : (if (c0 :: sch') ∈ uses_params then splitParams rel
      else (rel, [])) = (rel, []) := by
    by_cases h : (c0 :: sch') ∈ uses_params
    · rw [if_pos h, hprel]
    · rw [if_neg h]
  rw [hbase, urljoinChars, hbs, if_pos hrelsch, hhead, hlowmap]
  simp only [hpr]
  rw [hbp, if_pos hgl, hmerge, hresolve]
  rw [if_neg (by simp)]
  cases hc : ps with
  | nil =>
    simp only [List.nil_append]
    rw [joinSlash_splitSlash]
    simp [mkBaseChars, pathChars]
  | cons q qs =>
    rw [joinSlash_append (q :: qs) (splitSlash rel) (by simp) hR,
      joinSlash_splitSlash]
    have hpc : pathChars (q :: qs) = '/' :: joinSlash (q :: qs) :=
      pathChars_of_ne_nil _ (by simp)
    simp [mkBaseChars, hpc]

/-- Characters with no special URL role in the modelled domain: excludes the
query and fragment delimiters, the `';'` params delimiter, the brackets of
IP-literal hosts (which `urlsplit` validates), and the tab/CR/LF characters
`urlsplit` removes. -/
def plainUrlChar (c : Char) : Bool :=
  !(c = '?' || c = '#' || c = ';' || c = '[' || c = ']' ||
    c = '\t' || c = '\r' || c = '\n')

/-- C2: For every configured base URL (a well-formed absolute URL
`scheme://host[/segments][/]` whose scheme is lowercase and relative-capable
and whose parts carry no URL metacharacters), version `V` and resource `R`
(neither introducing empty, `.` or `..` path segments, nor any of the
query/fragment/params delimiters), the URL assembled for a request equals
the base URL, exactly one `/` separator, then `api/` + V + R — regardless of
whether the base URL ends with `/` or `R` starts with `/`. -/
theorem c2_url_assembly (c0 : Char) (sch' host : List Char)
    (ps : List (List Char)) (trail : Bool) (V R : String)
    (tok meth : String) (hdrsD : List (String × String)) (rfs : Bool)
    (data : Option PyVal) (hdrs : Option (List (String × String)))
    (hc0 : c0.isAlpha = true)
    (hsch : ∀ ch ∈ (c0 :: sch'), isSchemeChar ch = true)
    (hlow : ∀ ch ∈ (c0 :: sch'), ch.toLower = ch)
    (hrelsch : (c0 :: sch') ∈ uses_relative)
    (hhost : ∀ ch ∈ host, ch ≠ '/')
    (hps : ∀ p ∈ ps, p ≠ [] ∧ (∀ ch ∈ p, ch ≠ '/') ∧ p ≠ ['.'] ∧ p ≠ ['.', '.'])
    (hrel1 : ∀ x ∈ (splitSlash ("api/" ++ V ++ R).toList).dropLast, x ≠ [])
    (hrel2 : ∀ x ∈ splitSlash ("api/" ++ V ++ R).toList,
      x ≠ ['.'] ∧ x ≠ ['.', '.'])
    (hsemi : ∀ ch ∈ (V ++ R).toList, ch ≠ ';')
    (hplain : ∀ ch ∈ mkBaseChars (c0 :: sch') host ps trail ++ (V ++ R).toList,
      plainUrlChar ch = true) :
    (buildRequest
      { token := tok, url := String.mk (mkBaseChars (c0 :: sch') host ps trail),
        headers := hdrsD, version := V, raise_for_status := rfs }
      meth R data hdrs).url =
    String.mk (mkBaseChars (c0 :: sch') host ps false) ++ "/api/" ++ V ++ R := by
  have hrelL : ("api/" ++ V ++ R).toList =
      'a' :: 'p' :: 'i' :: '/' :: (V.toList ++ R.toList) := by
    rw [string_toList_append, string_toList_append]
    rfl
  have hstrip : (lstripSlash ("/api/" ++ V ++ R)).toList =
      'a' :: 'p' :: 'i' :: '/' :: (V.toList ++ R.toList) := by
    rw [lstripSlash, mk_toList, string_toList_append, string_toList_append]
    rfl
  have hbaseL : (String.mk (mkBaseChars (c0 :: sch') host ps trail) ++ "/").toList =
      mkBaseChars (c0 :: sch') host ps trail ++ ['/'] := by
    rw [string_toList_append, mk_toList]
    rfl
  rw [hrelL] at hrel1 hrel2
  have hsemi' : ∀ ch ∈ ('a' :: 'p' :: 'i' :: '/' :: (V.toList ++ R.toList)),
      ch ≠ ';' := by
    rw [string_toList_append] at hsemi
    intro ch hch
    rcases List.mem_cons.mp hch with h | h
    · subst h; decide
    rcases List.mem_cons.mp h with h | h
    · subst h; decide
    rcases List.mem_cons.mp h with h | h
    · subst h; decide
    rcases List.mem_cons.mp h with h | h
    · subst h; decide
    exact hsemi ch h
  have hmain := urljoinChars_wf c0 sch' host ps trail
    ('a' :: 'p' :: 'i' :: '/' :: (V.toList ++ R.toList))
    hc0 hsch hlow hrelsch hhost hps hsemi' hrel1 hrel2
  apply string_eq_of_toList_eq
  rw [buildRequest]
  simp only
  rw [urljoin, mk_toList, hbaseL, hstrip, hmain]
  rw [string_toList_append, string_toList_append, string_toList_append, mk_toList]
  simp only [mk_toList, List.append_assoc]
  rfl

/-- Witness for C2 at the spec's own example: base `https://bhexpress.cl`,
version `v1`, resource `/dte` yield `https://bhexpress.cl/api/v1/dte`. -/
theorem c2_url_assembly_witness :
    String.mk (mkBaseChars ('h' :: "ttps".toList) "bhexpress.cl".toList [] false)
      = "https://bhexpress.cl" ∧
    (buildRequest
      { token := "T",
        url := String.mk (mkBaseChars ('h' :: "ttps".toList) "bhexpress.cl".toList [] false),
        headers := generate_headers "T", version := "v1", raise_for_status := true }
      "GET" "/dte" Option.none Option.none).url = "https://bhexpress.cl/api/v1/dte" := by
  constructor
  · decide
  · have h := c2_url_assembly 'h' "ttps".toList "bhexpress.cl".toList [] false
      "v1" "/dte" "T" "GET" (generate_headers "T") true Option.none Option.none
      (by decide) (by decide) (by decide) (by decide) (by decide) (by simp)
      (by decide) (by decide) (by decide) (by decide)
    rw [h]
    decide

/-! ### Lemmas about the dict merge -/

theorem dlookup_append (k : String) (x y : List (String × String)) :
    dlookup k (x ++ y) = match dlookup k x with
      | some v => some v
      | Option.none => dlookup k y := by
  induction x with
  | nil => simp [dlookup]
  | cons kv t ih =>
    obtain ⟨k1, v1⟩ := kv
    by_cases h : k1 = k
    · simp [dlookup, h]
    · simp [dlookup, h, ih]

theorem dlookup_merge_map_some (k : String) (a b : List (String × String))
    (v0 : String) (h : dlookup k a = some v0) :
    dlookup k (a.map (fun kv => (kv.1, (dlookup kv.1 b).getD kv.2))) =
      some ((dlookup k b).getD v0) := by
  induction a with
  | nil => simp [dlookup] at h
  | cons kv t ih =>
    obtain ⟨k1, v1⟩ := kv
    by_cases hk : k1 = k
    · subst hk
      simp [dlookup] at h
      subst h
      simp [dlookup]
    · simp [dlookup, hk] at h
      simp [dlookup, hk]
      exact ih h

theorem dlookup_merge_map_none (k : String) (a b : List (String × String))
    (h : dlookup k a = Option.none) :
    dlookup k (a.map (fun kv => (kv.1, (dlookup kv.1 b).getD kv.2))) =
      Option.none := by
  induction a with
  | nil => simp [dlookup]
  | cons kv t ih =>
    obtain ⟨k1, v1⟩ := kv
    by_cases hk : k1 = k
    · simp [dlookup, hk] at h
    · simp [dlookup, hk] at h
      simp [dlookup, hk]
      exact ih h

theorem dlookup_filter_not_in (k : String) (a b : List (String × String))
    (h : dlookup k a = Option.none) :
    dlookup k (b.filter (fun kv => dlookup kv.1 a = Option.none)) =
      dlookup k b := by
  induction b with
  | nil => rfl
  | cons kv t ih =>
    obtain ⟨k1, v1⟩ := kv
    by_cases hk : k1 = k
    · subst hk
      rw [List.filter_cons_of_pos (by simpa using h)]
      simp [dlookup]
    · by_cases hin : dlookup k1 a = Option.none
      · rw [List.filter_cons_of_pos (by simpa using hin)]
        simp [dlookup, hk]
        exact ih
      · rw [List.filter_cons_of_neg (by simpa using hin)]
        rw [ih]
        simp [dlookup, hk]

theorem dlookup_mergeDicts (a b : List (String × String)) (k : String) :
    dlookup k (mergeDicts a b) =
      match dlookup k b with
      | some v => some v
      | Option.none => dlookup k a := by
  cases ha : dlookup k a with
  | some v0 =>
    rw [mergeDicts, dlookup_append, dlookup_merge_map_some k a b v0 ha]
    cases hb : dlookup k b <;> simp
  | none =>
    rw [mergeDicts, dlookup_append, dlookup_merge_map_none k a b ha,
      dlookup_filter_not_in k a b ha]
    cases hb : dlookup k b <;> simp [ha]

/-- The request a verb call hands to the transport is `buildRequest`'s
result, whatever the transport then does. -/
theorem request_fst (c : ApiClient) (meth resource : String)
    (data : Option PyVal) (hdrs : Option (List (String × String)))
    (tr : Nat → TransportOutcome) :
    (request c meth resource data hdrs tr).1 =
      buildRequest c meth resource data hdrs := by
  rw [request]
  cases tr 0 <;> rfl

/-- C7: For every verb call, the headers sent to the Transport are the
default headers overridden/extended by the caller-supplied headers: on an
exact (case-sensitive) key collision the caller's value wins, and every
default header whose key the caller does not supply is still present with
its default value. -/
theorem c7_header_merge (c : ApiClient) (meth resource : String)
    (data : Option PyVal) (hs : List (String × String))
    (tr : Nat → TransportOutcome) (k : String) :
    dlookup k ((request c meth resource data (some hs) tr).1.headers) =
      match dlookup k hs with
      | some v => some v
      | Option.none => dlookup k c.headers := by
  rw [request_fst, buildRequest]
  exact dlookup_mergeDicts c.headers hs k

/-! ### Response validation facts -/

theorem check_ok_of_no_http_error (c : ApiClient) (r : Response)
    (h : raisesHTTPError r.status_code = false) :
    check_and_return_response c r = .ok r := by
  rw [check_and_return_response]
  by_cases hc : r.status_code ≠ 200 ∧ c.raise_for_status = true
  · rw [if_pos hc, if_neg (by simp [h])]
  · rw [if_neg hc]

theorem check_ok_of_no_raise (c : ApiClient) (r : Response)
    (h : c.raise_for_status = false) :
    check_and_return_response c r = .ok r := by
  rw [check_and_return_response, if_neg]
  intro hc
  rw [h] at hc
  exact Bool.false_ne_true hc.2

theorem status_ne_200_of_http_error (r : Response)
    (h : raisesHTTPError r.status_code = true) : r.status_code ≠ 200 := by
  simp [raisesHTTPError] at h
  omega

theorem check_error_of_http_error (c : ApiClient) (r : Response)
    (hrfs : c.raise_for_status = true) (h : raisesHTTPError r.status_code = true) :
    ∃ e, check_and_return_response c r = .error e := by
  rw [check_and_return_response,
    if_pos ⟨status_ne_200_of_http_error r h, hrfs⟩, if_pos h]
  rcases r.jsonBody with msg | v
  · exact ⟨_, rfl⟩
  · rcases v <;> exact ⟨_, rfl⟩

/-- A concrete client configuration used to instantiate theorems: the
default base URL and version, raise-on-error enabled. -/
def sampleClient : ApiClient :=
  { token := "T", url := "https://bhexpress.cl",
    headers := generate_headers "T", version := "v1",
    raise_for_status := true }

/-- A 201 Created response whose body is not JSON. -/
def r201 : Response :=
  { status_code := 201, text := "",
    jsonBody := .error "Expecting value: line 1 column 1 (char 0)" }

/-- C1 (amended): every verb call validates a received response with the
check routine; with raise-on-error enabled that routine yields an error
exactly for statuses in 400..599 — a non-200 status outside that range
(such as 201 or 204) is returned untouched, as is any response when
raise-on-error is disabled or the status is 200. -/
theorem c1_status_policy (c : ApiClient) (resource : String)
    (data : Option PyVal) (hdrs : Option (List (String × String)))
    (r : Response) (tr : Nat → TransportOutcome)
    (htr : tr 0 = .success r) :
    ((c.get resource hdrs tr).2.2 = check_and_return_response c r ∧
     (c.delete resource hdrs tr).2.2 = check_and_return_response c r ∧
     (c.post resource data hdrs tr).2.2 = check_and_return_response c r ∧
     (c.put resource data hdrs tr).2.2 = check_and_return_response c r) ∧
    (c.raise_for_status = true → raisesHTTPError r.status_code = true →
      ∃ e, check_and_return_response c r = .error e) ∧
    (raisesHTTPError r.status_code = false →
      check_and_return_response c r = .ok r) ∧
    (c.raise_for_status = false →
      check_and_return_response c r = .ok r) := by
  refine ⟨⟨?_, ?_, ?_, ?_⟩, ?_, ?_, ?_⟩
  · simp [ApiClient.get, request, htr]
  · simp [ApiClient.delete, request, htr]
  · simp [ApiClient.post, request, htr]
  · simp [ApiClient.put, request, htr]
  · exact fun hrfs h4 => check_error_of_http_error c r hrfs h4
  · exact fun h => check_ok_of_no_http_error c r h
  · exact fun h => check_ok_of_no_raise c r h

/-- Witness for C1 at a concrete 404 (raised) and a concrete 200-like
delegation. -/
theorem c1_status_policy_witness :
    (sampleClient.get "/dte" Option.none (fun _ => .success r201)).2.2 =
      check_and_return_response sampleClient r201 ∧
    (∃ e, check_and_return_response sampleClient
      { status_code := 404, text := "x", jsonBody := .error "e" } = .error e) := by
  constructor
  · exact (c1_status_policy sampleClient "/dte" Option.none Option.none r201
      (fun _ => .success r201) rfl).1.1
  · exact (c1_status_policy sampleClient "/dte" Option.none Option.none
      { status_code := 404, text := "x", jsonBody := .error "e" }
      (fun _ => .success { status_code := 404, text := "x", jsonBody := .error "e" })
      rfl).2.1 rfl rfl

/-- Counterexample to C1 as stated: with raise-on-error enabled, a 201
response — whose status is not exactly 200 — is returned untouched instead
of raising. -/
theorem c1_counterexample :
    (sampleClient.get "/dte" Option.none (fun _ => .success r201)).2.2 =
      .ok r201 ∧
    sampleClient.raise_for_status = true ∧ r201.status_code ≠ 200 := by
  refine ⟨rfl, rfl, by decide⟩

/-- A 404 response with JSON body `{"message": "not found"}`. -/
def r404 : Response :=
  { status_code := 404, text := "\x7b\"message\": \"not found\"\x7d",
    jsonBody := .ok (.dict [("message", .str "not found")]) }

/-- C3 (amended): for every 4xx/5xx response processed with raise-on-error
enabled, the raised `ApiException` carries message `"Error HTTP: "` followed
by: the body's non-empty `message` field if present, else its non-empty
`exception` field, else `"Error desconocido."`; and when the body is not
valid JSON, `"Error al decodificar los datos en JSON: "` followed by the raw
response text. -/
theorem c3_error_message (c : ApiClient) (r : Response)
    (hrfs : c.raise_for_status = true)
    (h4 : raisesHTTPError r.status_code = true) :
    (∀ d m, r.jsonBody = .ok (.dict d) →
      dlookupP "message" d = some (.str m) → m ≠ "" →
      check_and_return_response c r =
        .error (.apiExc (simpleExc ("Error HTTP: " ++ m)))) ∧
    (∀ d e, r.jsonBody = .ok (.dict d) →
      truthy (pyGet d "message" (.str "")) = false →
      dlookupP "exception" d = some (.str e) → e ≠ "" →
      check_and_return_response c r =
        .error (.apiExc (simpleExc ("Error HTTP: " ++ e)))) ∧
    (∀ d, r.jsonBody = .ok (.dict d) →
      truthy (pyGet d "message" (.str "")) = false →
      truthy (pyGet d "exception" (.str "")) = false →
      check_and_return_response c r =
        .error (.apiExc (simpleExc "Error HTTP: Error desconocido."))) ∧
    (∀ msg, r.jsonBody = .error msg →
      check_and_return_response c r =
        .error (.apiExc (simpleExc ("Error HTTP: " ++
          ("Error al decodificar los datos en JSON: " ++ r.text))))) := by
  have hne := status_ne_200_of_http_error r h4
  refine ⟨?_, ?_, ?_, ?_⟩
  · intro d m hd hm hmne
    rw [check_and_return_response, if_pos ⟨hne, hrfs⟩, if_pos h4, hd]
    have hx : extractMessage d = .str m := by
      rw [extractMessage, pyGet, hm]
      simp [pyOr, truthy, hmne]
    simp [hx, pyStr]
  · intro d e hd hm he hene
    rw [check_and_return_response, if_pos ⟨hne, hrfs⟩, if_pos h4, hd]
    have hx : extractMessage d = .str e := by
      rw [extractMessage, pyOr, hm, if_neg (by simp)]
      rw [pyGet, he]
      simp [pyOr, truthy, hene]
    simp [hx, pyStr]
  · intro d hd hm he
    rw [check_and_return_response, if_pos ⟨hne, hrfs⟩, if_pos h4, hd]
    have hx : extractMessage d = .str "Error desconocido." := by
      rw [extractMessage, pyOr, hm, if_neg (by simp), pyOr, he, if_neg (by simp)]
    simp [hx, pyStr]
  · intro msg hmsg
    rw [check_and_return_response, if_pos ⟨hne, hrfs⟩, if_pos h4, hmsg]

/-- Witness for C3: the four message-extraction branches at concrete 4xx/5xx
responses. -/
theorem c3_error_message_witness :
    check_and_return_response sampleClient r404 =
      .error (.apiExc (simpleExc "Error HTTP: not found")) ∧
    check_and_return_response sampleClient
      { status_code := 500, text := "x",
        jsonBody := .ok (.dict [("exception", .str "boom")]) } =
      .error (.apiExc (simpleExc "Error HTTP: boom")) ∧
    check_and_return_response sampleClient
      { status_code := 500, text := "x", jsonBody := .ok (.dict []) } =
      .error (.apiExc (simpleExc "Error HTTP: Error desconocido.")) ∧
    check_and_return_response sampleClient
      { status_code := 502, text := "<html>", jsonBody := .error "bad" } =
      .error (.apiExc (simpleExc
        "Error HTTP: Error al decodificar los datos en JSON: <html>")) := by
  refine ⟨?_, ?_, ?_, ?_⟩
  · exact (c3_error_message sampleClient r404 rfl rfl).1
      [("message", .str "not found")] "not found" rfl rfl (by decide)
  · exact (c3_error_message sampleClient
      { status_code := 500, text := "x",
        jsonBody := .ok (.dict [("exception", .str "boom")]) } rfl rfl).2.1
      [("exception", .str "boom")] "boom" rfl rfl rfl (by decide)
  · exact (c3_error_message sampleClient
      { status_code := 500, text := "x", jsonBody := .ok (.dict []) }
      rfl rfl).2.2.1 [] rfl rfl rfl
  · exact (c3_error_message sampleClient
      { status_code := 502, text := "<html>", jsonBody := .error "bad" }
      rfl rfl).2.2.2 "bad" rfl

/-- Counterexample to C3 as stated: the message raised for a 404 with body
`{"message": "not found"}` is the Spanish `"Error HTTP: not found"`, not the
claimed `"HTTP Error: not found"`. -/
theorem c3_counterexample :
    check_and_return_response sampleClient r404 =
      .error (.apiExc (simpleExc "Error HTTP: not found")) ∧
    "Error HTTP: not found" ≠ "HTTP Error: not found" := by
  refine ⟨rfl, by decide⟩

/-- C4 (amended): a connection failure maps to an `ApiException` with
message `"Error de conexión: {detail}"`, a timeout to
`"Error de timeout: {detail}"`, any other transport failure to
`"Error en la solicitud: {detail}"`; and the result of a call is determined
by the transport's first (and only) invocation — no retry is performed. -/
theorem c4_transport_failures (c : ApiClient) (meth resource : String)
    (data : Option PyVal) (hdrs : Option (List (String × String)))
    (tr : Nat → TransportOutcome) (d : String) :
    (tr 0 = .connectionError d →
      (request c meth resource data hdrs tr).2 =
        .error (.apiExc (simpleExc ("Error de conexión: " ++ d)))) ∧
    (tr 0 = .timeout d →
      (request c meth resource data hdrs tr).2 =
        .error (.apiExc (simpleExc ("Error de timeout: " ++ d)))) ∧
    (tr 0 = .requestError d →
      (request c meth resource data hdrs tr).2 =
        .error (.apiExc (simpleExc ("Error en la solicitud: " ++ d)))) ∧
    (∀ tr' : Nat → TransportOutcome, tr' 0 = tr 0 →
      request c meth resource data hdrs tr' =
        request c meth resource data hdrs tr) := by
  refine ⟨?_, ?_, ?_, ?_⟩
  · intro h
    simp [request, h]
  · intro h
    simp [request, h]
  · intro h
    simp [request, h]
  · intro tr' h
    rw [request, request, h]

/-- Witness for C4: the three mappings and the single-invocation fact at
concrete transports. -/
theorem c4_transport_failures_witness :
    (request sampleClient "GET" "/dte" Option.none Option.none
      (fun _ => .connectionError "boom")).2 =
      .error (.apiExc (simpleExc "Error de conexión: boom")) ∧
    (request sampleClient "GET" "/dte" Option.none Option.none
      (fun _ => .timeout "slow")).2 =
      .error (.apiExc (simpleExc "Error de timeout: slow")) ∧
    (request sampleClient "GET" "/dte" Option.none Option.none
      (fun _ => .requestError "bad")).2 =
      .error (.apiExc (simpleExc "Error en la solicitud: bad")) ∧
    request sampleClient "GET" "/dte" Option.none Option.none
      (fun n => if n = 0 then .connectionError "boom" else .timeout "later") =
      request sampleClient "GET" "/dte" Option.none Option.none
        (fun _ => .connectionError "boom") := by
  refine ⟨?_, ?_, ?_, ?_⟩
  · exact (c4_transport_failures sampleClient "GET" "/dte" Option.none
      Option.none (fun _ => .connectionError "boom") "boom").1 rfl
  · exact (c4_transport_failures sampleClient "GET" "/dte" Option.none
      Option.none (fun _ => .timeout "slow") "slow").2.1 rfl
  · exact (c4_transport_failures sampleClient "GET" "/dte" Option.none
      Option.none (fun _ => .requestError "bad") "bad").2.2.1 rfl
  · exact (c4_transport_failures sampleClient "GET" "/dte" Option.none
      Option.none (fun _ => .connectionError "boom") "x").2.2.2
      (fun n => if n = 0 then .connectionError "boom" else .timeout "later") rfl

/-- Counterexample to C4 as stated: the message for a connection failure is
the Spanish `"Error de conexión: boom"`, not the claimed
`"Connection error: boom"`. -/
theorem c4_counterexample :
    (request sampleClient "GET" "/dte" Option.none Option.none
      (fun _ => .connectionError "boom")).2 =
      .error (.apiExc (simpleExc "Error de conexión: boom")) ∧
    "Error de conexión: boom" ≠ "Connection error: boom" := by
  refine ⟨rfl, by decide⟩

/-- C5 (amended): construction uses the given token whenever it is non-empty
before trimming (a whitespace-only token is used, not replaced by the
environment), otherwise the environment variable; it fails with the
configuration `ApiException` exactly when neither is non-empty; the stored
token is the trimmed chosen value — possibly empty — and for every non-empty
token T the default Authorization header is `"Token " + T.strip()`. -/
theorem c5_token_resolution (envT envU : Option String)
    (u v : Option String) (rfs : Bool) :
    (∀ s : String, s ≠ "" →
      ∃ c, ApiClient.make envT envU (some s) u v rfs = .ok c ∧
        c.token = pyStrip s ∧
        dlookup "Authorization" c.headers = some ("Token " ++ pyStrip s)) ∧
    (∀ es, envT = some es → es ≠ "" →
      ∃ c, ApiClient.make envT envU Option.none u v rfs = .ok c ∧
        c.token = pyStrip es) ∧
    (∀ es, envT = some es → es ≠ "" →
      ∃ c, ApiClient.make envT envU (some "") u v rfs = .ok c ∧
        c.token = pyStrip es) ∧
    ((envT = Option.none ∨ envT = some "") →
      ApiClient.make envT envU Option.none u v rfs =
        .error (simpleExc
          "Se debe configurar la variable de entorno: BHEXPRESS_API_TOKEN.")) ∧
    ((envT = Option.none ∨ envT = some "") →
      ApiClient.make envT envU (some "") u v rfs =
        .error (simpleExc
          "Se debe configurar la variable de entorno: BHEXPRESS_API_TOKEN.")) := by
  refine ⟨?_, ?_, ?_, ?_, ?_⟩
  · intro s hs
    refine ⟨{ token := pyStrip s, url := validate_url envU u,
              headers := generate_headers (pyStrip s),
              version := resolveVersion v, raise_for_status := rfs },
      ?_, rfl, ?_⟩
    · rw [ApiClient.make, validate_token, pyOrStr]
      simp [hs]
    · simp [generate_headers, dlookup]
  · intro es hes hesne
    refine ⟨{ token := pyStrip es, url := validate_url envU u,
              headers := generate_headers (pyStrip es),
              version := resolveVersion v, raise_for_status := rfs }, ?_, rfl⟩
    rw [ApiClient.make, validate_token, pyOrStr, hes]
    simp [hesne]
  · intro es hes hesne
    refine ⟨{ token := pyStrip es, url := validate_url envU u,
              headers := generate_headers (pyStrip es),
              version := resolveVersion v, raise_for_status := rfs }, ?_, rfl⟩
    rw [ApiClient.make, validate_token, pyOrStr]
    rw [if_pos rfl, hes]
    simp [hesne]
  · rintro (h | h) <;>
      rw [ApiClient.make, validate_token, pyOrStr, h] <;> simp
  · rintro (h | h) <;>
      rw [ApiClient.make, validate_token, pyOrStr, if_pos rfl, h] <;> simp

/-- Witness for C5: a non-empty token is trimmed and drives the
Authorization header; the environment variable is used when no token is
given; construction fails when neither is set. -/
theorem c5_token_resolution_witness :
    (∃ c, ApiClient.make (some "ET") Option.none (some " tok ") Option.none
        Option.none true = .ok c ∧
      c.token = pyStrip " tok " ∧
      dlookup "Authorization" c.headers = some ("Token " ++ pyStrip " tok ")) ∧
    (∃ c, ApiClient.make (some "ET") Option.none Option.none Option.none
        Option.none true = .ok c ∧ c.token = pyStrip "ET") ∧
    ApiClient.make Option.none Option.none Option.none Option.none
      Option.none true = .error (simpleExc
        "Se debe configurar la variable de entorno: BHEXPRESS_API_TOKEN.") := by
  refine ⟨?_, ?_, ?_⟩
  · exact (c5_token_resolution (some "ET") Option.none Option.none
      Option.none true).1 " tok " (by decide)
  · exact (c5_token_resolution (some "ET") Option.none Option.none
      Option.none true).2.1 "ET" rfl (by decide)
  · exact (c5_token_resolution Option.none Option.none Option.none
      Option.none true).2.2.2.1 (Or.inl rfl)

/-- Counterexample to C5 as stated: a whitespace-only token is accepted
(the environment is not consulted and construction succeeds), and the stored
token is empty — the claimed invariant "after any successful construction
the stored token is non-empty" fails. -/
theorem c5_counterexample :
    ((ApiClient.make Option.none Option.none (some " ") Option.none
      Option.none true).toOption.map (fun c => c.token)) = some "" := by
  decide

/-- C6 (amended): for every post/put call, a *truthy* non-string `data` is
sent as its JSON serialization, a string is passed through unchanged, a
falsy value (such as an empty dict) is passed through to the transport
unserialized, and absent data sends no body. -/
theorem c6_body_encoding (c : ApiClient) (resource : String)
    (hdrs : Option (List (String × String))) (tr : Nat → TransportOutcome) :
    (∀ v : PyVal, truthy v = true → isStr v = false →
      (c.post resource (some v) hdrs tr).2.1.data =
        some (.str (jsonDumps v)) ∧
      (c.put resource (some v) hdrs tr).2.1.data =
        some (.str (jsonDumps v))) ∧
    (∀ s : String,
      (c.post resource (some (.str s)) hdrs tr).2.1.data = some (.str s) ∧
      (c.put resource (some (.str s)) hdrs tr).2.1.data = some (.str s)) ∧
    (∀ v : PyVal, truthy v = false →
      (c.post resource (some v) hdrs tr).2.1.data = some v ∧
      (c.put resource (some v) hdrs tr).2.1.data = some v) ∧
    ((c.post resource Option.none hdrs tr).2.1.data = Option.none ∧
     (c.put resource Option.none hdrs tr).2.1.data = Option.none) := by
  have hpost : ∀ d, (c.post resource d hdrs tr).2.1 =
      buildRequest c "POST" resource d hdrs := by
    intro d
    rw [ApiClient.post]
    exact request_fst c "POST" resource d hdrs tr
  have hput : ∀ d, (c.put resource d hdrs tr).2.1 =
      buildRequest c "PUT" resource d hdrs := by
    intro d
    rw [ApiClient.put]
    exact request_fst c "PUT" resource d hdrs tr
  refine ⟨?_, ?_, ?_, ?_⟩
  · intro v hv hvs
    rw [hpost, hput, buildRequest, buildRequest]
    simp [encodeBody, hv, hvs]
  · intro s
    rw [hpost, hput, buildRequest, buildRequest]
    simp [encodeBody, isStr]
  · intro v hv
    rw [hpost, hput, buildRequest, buildRequest]
    simp [encodeBody, hv]
  · rw [hpost, hput, buildRequest, buildRequest]
    exact ⟨rfl, rfl⟩

/-- Witness for C6 at concrete payloads: a truthy dict is serialized, a
string passes through. -/
theorem c6_body_encoding_witness :
    ((sampleClient.post "/dte" (some (.dict [("rut", .str "1-9")]))
        Option.none (fun _ => .connectionError "x")).2.1.data =
      some (.str (jsonDumps (.dict [("rut", .str "1-9")]))) ∧
     (sampleClient.put "/dte" (some (.dict [("rut", .str "1-9")]))
        Option.none (fun _ => .connectionError "x")).2.1.data =
      some (.str (jsonDumps (.dict [("rut", .str "1-9")])))) ∧
    (sampleClient.post "/dte" (some (.str "raw")) Option.none
      (fun _ => .connectionError "x")).2.1.data = some (.str "raw") := by
  constructor
  · exact (c6_body_encoding sampleClient "/dte" Option.none
      (fun _ => .connectionError "x")).1 (.dict [("rut", .str "1-9")])
      (by decide) rfl
  · exact ((c6_body_encoding sampleClient "/dte" Option.none
      (fun _ => .connectionError "x")).2.1 "raw").1

/-- Counterexample to C6 as stated: an empty dict is provided and is not a
string, yet the body handed to the transport is the raw dict, not its JSON
serialization `"{}"`. -/
theorem c6_counterexample :
    (sampleClient.post "/dte" (some (.dict [])) Option.none
      (fun _ => .connectionError "x")).2.1.data = some (.dict []) ∧
    some (PyVal.dict []) ≠ some (.str (jsonDumps (.dict []))) := by
  refine ⟨rfl, fun h => PyVal.noConfusion (Option.some.inj h)⟩

/-- Discriminator: is an escaped Python exception the client's
`ApiException`? -/
def isApiExc : PyError → Bool
  | .apiExc _ => true
  | .attributeError _ => false

/-- C8 (amended): every failure of construction or of a verb call —
configuration error, transport failure, or HTTP error-status validation —
surfaces synchronously as `ApiException`, *provided* any valid-JSON error
body is a JSON object; a valid-JSON non-object body instead escapes as an
`AttributeError`. -/
theorem c8_single_exception_kind (c : ApiClient) (meth resource : String)
    (data : Option PyVal) (hdrs : Option (List (String × String)))
    (tr : Nat → TransportOutcome)
    (hbody : ∀ r : Response, tr 0 = .success r →
      ∀ v, r.jsonBody = .ok v → ∃ d, v = .dict d) :
    (∀ pe, (request c meth resource data hdrs tr).2 = .error pe →
      isApiExc pe = true) ∧
    (∀ envT envU t u ver rfs e,
      ApiClient.make envT envU t u ver rfs = .error e →
      e = simpleExc
        "Se debe configurar la variable de entorno: BHEXPRESS_API_TOKEN.") := by
  constructor
  · intro pe hpe
    cases htr : tr 0 with
    | success r =>
      rw [request] at hpe
      simp only [htr] at hpe
      rw [check_and_return_response] at hpe
      by_cases h1 : r.status_code ≠ 200 ∧ c.raise_for_status = true
      · rw [if_pos h1] at hpe
        by_cases h4 : raisesHTTPError r.status_code = true
        · rw [if_pos h4] at hpe
          cases hjson : r.jsonBody with
          | error msg =>
            rw [hjson] at hpe
            cases Except.error.inj hpe
            rfl
          | ok v =>
            obtain ⟨d, rfl⟩ := hbody r htr v hjson
            rw [hjson] at hpe
            cases Except.error.inj hpe
            rfl
        · rw [if_neg (by simpa using h4)] at hpe
          cases hpe
      · rw [if_neg h1] at hpe
        cases hpe
    | connectionError e =>
      rw [request] at hpe
      simp only [htr] at hpe
      cases Except.error.inj hpe
      rfl
    | timeout e =>
      rw [request] at hpe
      simp only [htr] at hpe
      cases Except.error.inj hpe
      rfl
    | requestError e =>
      rw [request] at hpe
      simp only [htr] at hpe
      cases Except.error.inj hpe
      rfl
  · intro envT envU t u ver rfs e he
    rw [ApiClient.make] at he
    cases hv : validate_token envT t with
    | error e0 =>
      simp only [hv] at he
      have he0 : e0 = simpleExc
          "Se debe configurar la variable de entorno: BHEXPRESS_API_TOKEN." := by
        rw [validate_token] at hv
        cases hpo : pyOrStr t envT with
        | none =>
          simp only [hpo] at hv
          exact (Except.error.inj hv).symm
        | some s =>
          simp only [hpo] at hv
          by_cases hs : s = ""
          · rw [if_pos hs] at hv
            exact (Except.error.inj hv).symm
          · rw [if_neg hs] at hv
            cases hv
      exact (Except.error.inj he) ▸ he0
    | ok tk =>
      simp only [hv] at he
      cases he

/-- A 404 response whose body is valid JSON but not an object. -/
def r404list : Response :=
  { status_code := 404, text := "[]", jsonBody := .ok (.list []) }

/-- Witness for C8: a transport failure surfaces as `ApiException`, and a
construction failure is the configuration `ApiException`. -/
theorem c8_single_exception_kind_witness :
    isApiExc (.apiExc (simpleExc "Error de conexión: z")) = true ∧
    simpleExc "Se debe configurar la variable de entorno: BHEXPRESS_API_TOKEN."
      = simpleExc
        "Se debe configurar la variable de entorno: BHEXPRESS_API_TOKEN." := by
  constructor
  · exact (c8_single_exception_kind sampleClient "GET" "/dte" Option.none
      Option.none (fun _ => .connectionError "z")
      (fun r hr => TransportOutcome.noConfusion hr)).1
      (.apiExc (simpleExc "Error de conexión: z")) rfl
  · exact (c8_single_exception_kind sampleClient "GET" "/dte" Option.none
      Option.none (fun _ => .connectionError "z")
      (fun r hr => TransportOutcome.noConfusion hr)).2
      Option.none Option.none Option.none Option.none Option.none true
      (simpleExc
        "Se debe configurar la variable de entorno: BHEXPRESS_API_TOKEN.") rfl

/-- Counterexample to C8 as stated: a 404 whose body is the valid JSON value
`[]` (not an object) escapes as an `AttributeError`, not as `ApiException`. -/
theorem c8_counterexample :
    (request sampleClient "GET" "/dte" Option.none Option.none
      (fun _ => .success r404list)).2 =
      .error (.attributeError "'list' object has no attribute 'get'") ∧
    isApiExc (.attributeError "'list' object has no attribute 'get'") = false := by
  exact ⟨rfl, rfl⟩

/-- C9: the client configuration and the default-headers mapping are fixed
at construction and unchanged by every verb call — each call returns the
client state unmodified — and the headers handed to the transport are a
fresh merge of the stored defaults with the per-call headers. -/
theorem c9_immutability (c : ApiClient) (resource : String)
    (data : Option PyVal) (hs : Option (List (String × String)))
    (tr : Nat → TransportOutcome) :
    ((c.get resource hs tr).1 = c ∧ (c.delete resource hs tr).1 = c ∧
     (c.post resource data hs tr).1 = c ∧ (c.put resource data hs tr).1 = c) ∧
    ((c.get resource hs tr).2.1.headers = mergeDicts c.headers (hs.getD []) ∧
     (c.delete resource hs tr).2.1.headers = mergeDicts c.headers (hs.getD []) ∧
     (c.post resource data hs tr).2.1.headers = mergeDicts c.headers (hs.getD []) ∧
     (c.put resource data hs tr).2.1.headers = mergeDicts c.headers (hs.getD [])) ∧
    ((c.get resource hs tr).1.headers = c.headers ∧
     (c.get resource hs tr).1.token = c.token ∧
     (c.get resource hs tr).1.url = c.url ∧
     (c.get resource hs tr).1.version = c.version ∧
     (c.get resource hs tr).1.raise_for_status = c.raise_for_status) := by
  refine ⟨⟨rfl, rfl, rfl, rfl⟩, ⟨?_, ?_, ?_, ?_⟩, rfl, rfl, rfl, rfl, rfl⟩
  · rw [ApiClient.get, request_fst, buildRequest]
  · rw [ApiClient.delete, request_fst, buildRequest]
  · rw [ApiClient.post, request_fst, buildRequest]
  · rw [ApiClient.put, request_fst, buildRequest]

/-- C10: every `ApiException` raised by the client itself — at construction,
from a transport failure, or from HTTP error-status validation — carries
`code = None` and `params = None`, so its string rendering is always the
codeless `"[BHExpress] {message}"` form. -/
theorem c10_exceptions_codeless (envT envU t u ver : Option String)
    (rfs : Bool) (c : ApiClient) (meth resource : String)
    (data : Option PyVal) (hdrs : Option (List (String × String)))
    (tr : Nat → TransportOutcome) :
    (∀ e, ApiClient.make envT envU t u ver rfs = .error e →
      e.code = Option.none ∧ e.params = Option.none ∧
      e.render = "[BHExpress] " ++ e.message) ∧
    (∀ e, (request c meth resource data hdrs tr).2 = .error (.apiExc e) →
      e.code = Option.none ∧ e.params = Option.none ∧
      e.render = "[BHExpress] " ++ e.message) := by
  have hsimple : ∀ msg, (simpleExc msg).code = Option.none ∧
      (simpleExc msg).params = Option.none ∧
      (simpleExc msg).render = "[BHExpress] " ++ (simpleExc msg).message := by
    intro msg
    exact ⟨rfl, rfl, rfl⟩
  constructor
  · intro e he
    rw [ApiClient.make] at he
    cases hv : validate_token envT t with
    | error e0 =>
      simp only [hv] at he
      cases Except.error.inj he
      rw [validate_token] at hv
      cases hpo : pyOrStr t envT with
      | none =>
        simp only [hpo] at hv
        cases Except.error.inj hv
        exact hsimple _
      | some s =>
        simp only [hpo] at hv
        by_cases hs : s = ""
        · rw [if_pos hs] at hv
          cases Except.error.inj hv
          exact hsimple _
        · rw [if_neg hs] at hv
          cases hv
    | ok tk =>
      simp only [hv] at he
      cases he
  · intro e he
    cases htr : tr 0 with
    | success r =>
      rw [request] at he
      simp only [htr] at he
      rw [check_and_return_response] at he
      by_cases h1 : r.status_code ≠ 200 ∧ c.raise_for_status = true
      · rw [if_pos h1] at he
        by_cases h4 : raisesHTTPError r.status_code = true
        · rw [if_pos h4] at he
          cases hjson : r.jsonBody with
          | error msg =>
            rw [hjson] at he
            cases PyError.apiExc.inj (Except.error.inj he)
            exact hsimple _
          | ok v =>
            rw [hjson] at he
            cases v with
            | dict d =>
              cases PyError.apiExc.inj (Except.error.inj he)
              exact hsimple _
            | pynone => exact PyError.noConfusion (Except.error.inj he)
            | str s => exact PyError.noConfusion (Except.error.inj he)
            | int n => exact PyError.noConfusion (Except.error.inj he)
            | bool b => exact PyError.noConfusion (Except.error.inj he)
            | list l => exact PyError.noConfusion (Except.error.inj he)
        · rw [if_neg (by simpa using h4)] at he
          cases he
      · rw [if_neg h1] at he
        cases he
    | connectionError d =>
      rw [request] at he
      simp only [htr] at he
      cases PyError.apiExc.inj (Except.error.inj he)
      exact hsimple _
    | timeout d =>
      rw [request] at he
      simp only [htr] at he
      cases PyError.apiExc.inj (Except.error.inj he)
      exact hsimple _
    | requestError d =>
      rw [request] at he
      simp only [htr] at he
      cases PyError.apiExc.inj (Except.error.inj he)
      exact hsimple _

/-- Witness for C10: the configuration failure and a transport failure both
render in the codeless form. -/
theorem c10_exceptions_codeless_witness :
    ((simpleExc
        "Se debe configurar la variable de entorno: BHEXPRESS_API_TOKEN.").code
      = Option.none ∧
     (simpleExc
        "Se debe configurar la variable de entorno: BHEXPRESS_API_TOKEN.").params
      = Option.none ∧
     (simpleExc
        "Se debe configurar la variable de entorno: BHEXPRESS_API_TOKEN.").render
      = "[BHExpress] " ++ (simpleExc
        "Se debe configurar la variable de entorno: BHEXPRESS_API_TOKEN.").message) ∧
    ((simpleExc "Error de timeout: t").code = Option.none ∧
     (simpleExc "Error de timeout: t").params = Option.none ∧
     (simpleExc "Error de timeout: t").render
      = "[BHExpress] " ++ (simpleExc "Error de timeout: t").message) := by
  constructor
  · exact (c10_exceptions_codeless Option.none Option.none Option.none
      Option.none Option.none true sampleClient "GET" "/dte" Option.none
      Option.none (fun _ => .timeout "t")).1 _ rfl
  · exact (c10_exceptions_codeless Option.none Option.none Option.none
      Option.none Option.none true sampleClient "GET" "/dte" Option.none
      Option.none (fun _ => .timeout "t")).2 _ rfl
